import Mathlib

/-!
Verification of the warde-scra stock-synchronisation scripts.

The repository holds near-duplicate variants of one script
(src/sync.js, src/unnamed/part_000, src/unnamed/part_001) that
  1. page through the WooCommerce product catalog,
  2. scrape an "Available Stock" figure from a supplier page
     (rendered-DOM via regex over element texts, or static HTML via
     selector + sibling text), and
  3. PUT the quantity and a derived stock status back to the API.

Below, each JavaScript function is shallowly embedded as a computable
Lean definition over lists of characters (strings), option/except
results and explicit run traces; theorems settle the spec claims.
-/

namespace WardeScra

/-! ## Character primitives (models of the JS regex classes used) -/

/-- Model of the regex class a backslash-s matches, restricted to the ASCII
whitespace characters (space, tab, LF, CR, VT, FF). -/
def isWsChar (c : Char) : Bool :=
  decide (c.toNat = 32 ∨ c.toNat = 9 ∨ c.toNat = 10 ∨ c.toNat = 13 ∨
          c.toNat = 11 ∨ c.toNat = 12)

/-- Model of the regex digit class: the ASCII digits 0-9. -/
def isDigitChar (c : Char) : Bool :=
  decide (48 ≤ c.toNat ∧ c.toNat ≤ 57)

/-- ASCII lower-casing on code points, used for case-insensitive matching. -/
def lowerNat (n : Nat) : Nat :=
  if 65 ≤ n ∧ n ≤ 90 then n + 32 else n

/-- Case-insensitive character comparison (the regex i flag). -/
def charEqCI (a b : Char) : Bool :=
  decide (lowerNat a.toNat = lowerNat b.toNat)

/-- Numeric value of a digit run, as computed by parseInt(ds, 10) on a
string of ASCII digits. -/
def digitsVal (l : List Char) : Nat :=
  l.foldl (fun a c => a * 10 + (c.toNat - 48)) 0

/-- The characters of the word "Available". -/
def availList : List Char := ['A', 'v', 'a', 'i', 'l', 'a', 'b', 'l', 'e']

/-- The characters of the word "Stock". -/
def stockList : List Char := ['S', 't', 'o', 'c', 'k']

/-- The characters of the label phrase "Available Stock". -/
def phraseList : List Char := availList ++ [' '] ++ stockList

/-! ## The rendered-DOM scraper of src/unnamed/part_000 (extractStock)

extractStock waits (with timeout) for any element whose innerText
matches the pattern Available-whitespace*-Stock case-insensitively,
returning null on timeout; then it scans all elements in document
order and returns parseInt of the first capture of the regex
Available ws* Stock ws* colon? space* (digit+), flag i. -/

/-- Consume a pattern case-insensitively from the front of a text,
returning the rest of the text on success. -/
def matchCI : List Char → List Char → Option (List Char)
  | [], s => some s
  | _, [] => none
  | p :: ps, c :: cs => if charEqCI p c then matchCI ps cs else none

/-- Consume one optional leading colon (the regex piece colon-question). -/
def afterColon (s : List Char) : List Char :=
  match s with
  | [] => []
  | c :: r => if c = ':' then r else c :: r

/-- Attempt the stock regex at the start of the text: match "Available"
(case-insensitive), whitespace*, "Stock", whitespace*, an optional
colon, literal spaces*, then a non-empty digit run, which is returned. -/
def tryStockAt (s : List Char) : Option (List Char) :=
  match matchCI availList s with
  | none => none
  | some s1 =>
    match matchCI stockList (s1.dropWhile isWsChar) with
    | none => none
    | some s2 =>
      let s3 := (afterColon (s2.dropWhile isWsChar)).dropWhile (fun c => decide (c = ' '))
      let ds := s3.takeWhile isDigitChar
      if ds.isEmpty then none else some ds

/-- Leftmost match of the stock regex in a text: the digit run captured
at the first position where the whole pattern matches. -/
def searchStockDigits : List Char → Option (List Char)
  | [] => none
  | c :: r =>
    match tryStockAt (c :: r) with
    | some ds => some ds
    | none => searchStockDigits r

/-- parseInt applied to the leftmost stock-regex capture of a text. -/
def searchStockNum (s : List Char) : Option Nat :=
  (searchStockDigits s).map digitsVal

/-- Attempt the phrase-only regex (Available ws* Stock, flag i) at the
start of a text; this is the predicate of the waitForFunction poll. -/
def tryPhraseAt (s : List Char) : Bool :=
  match matchCI availList s with
  | none => false
  | some s1 => (matchCI stockList (s1.dropWhile isWsChar)).isSome

/-- Whether the phrase-only regex matches anywhere in a text. -/
def hasStockPhrase : List Char → Bool
  | [] => false
  | c :: r => tryPhraseAt (c :: r) || hasStockPhrase r

/-- First element text (in document order) whose stock regex matches,
mapped to its parsed quantity. -/
def findFirstStock : List (List Char) → Option Nat
  | [] => none
  | t :: ts =>
    match searchStockNum t with
    | some n => some n
    | none => findFirstStock ts

/-- Model of extractStock in src/unnamed/part_000: the page is the list
of element innerTexts in document order. If no element text contains
the phrase, the bounded wait times out and the result is null (none);
otherwise the first regex capture over the elements is parsed. -/
def extractStock (texts : List (List Char)) : Option Nat :=
  if texts.any hasStockPhrase then findFirstStock texts else none

/-! ## The paginating catalog loader (fetchAllProducts)

src/sync.js and src/unnamed/part_001 fetch pages of size 100 with an
incrementing page index until a page comes back empty, accumulating
all records. The remote catalog is modelled as the full record list;
page p serves the slice starting at (p-1)*100. The loop is embedded
structurally with a fuel bound of length+1, which always suffices
because every non-final iteration consumes 100 records. -/

/-- One while-loop execution of fetchAllProducts over the not-yet-served
part of the catalog. Returns the accumulated records and the number of
page-fetch calls issued. Fuel 0 is never reached from fetchAllProducts. -/
def fetchPagesAux {α : Type} : Nat → List α → List α × Nat
  | 0, _ => ([], 0)
  | fuel + 1, l =>
    if (l.take 100).isEmpty then ([], 1)
    else
      let rest := fetchPagesAux fuel (l.drop 100)
      (l.take 100 ++ rest.1, rest.2 + 1)

/-- Model of fetchAllProducts (src/sync.js lines 25-46 and
src/unnamed/part_001 lines 23-49): returns all records of the catalog
together with the number of page-fetch calls issued. -/
def fetchAllProducts {α : Type} (catalog : List α) : List α × Nat :=
  fetchPagesAux (catalog.length + 1) catalog

/-! ## String helpers shared by the static-HTML scrapers -/

/-- JS String.trim: remove leading and trailing whitespace. -/
def trim (s : List Char) : List Char :=
  ((s.dropWhile isWsChar).reverse.dropWhile isWsChar).reverse

/-- Case-sensitive substring test, as used by String.includes and by the
XPath contains() predicate. -/
def listContains (n : List Char) : List Char → Bool
  | [] => n.isEmpty
  | c :: t => n.isPrefixOf (c :: t) || listContains n t

/-- The capture of the regex (digit+) without anchors: the first maximal
digit run of the text, if any. -/
def firstDigitRun : List Char → Option (List Char)
  | [] => none
  | c :: r =>
    if isDigitChar c then some (c :: r.takeWhile isDigitChar)
    else firstDigitRun r

/-- text.replace of the non-digit class with nothing: keep only digits. -/
def removeNonDigits (s : List Char) : List Char :=
  s.filter isDigitChar

/-! ## The static-HTML scraper of src/sync.js (scrapeStock, cheerio) -/

/-- Errors thrown by the scrapers (per-item, caught by the driver loop). -/
inductive ScrapeErr : Type where
  | labelNotFound : ScrapeErr
  | stockTextNotFound : ScrapeErr
  | cannotParse : ScrapeErr
  | noNumeric : ScrapeErr
deriving DecidableEq

/-- One span.title element inside an li.flex, with its text and the text
of its immediately following span.value sibling (none when the next
sibling is absent or is not a span.value). -/
structure TitleSpan : Type where
  title : List Char
  value : Option (List Char)
deriving DecidableEq

/-- A supplier page as seen by the cheerio scraper: the li.flex
span.title elements it selects, plus the remaining page text, which the
selector never visits. -/
structure HtmlPage : Type where
  titles : List TitleSpan
  otherText : List Char
deriving DecidableEq

/-- Model of scrapeStock in src/sync.js (lines 65-89): filter the
li.flex span.title elements whose trimmed text equals "Available Stock";
if none, throw label-not-found; otherwise take the concatenated text of
their next span.value siblings, trim it, and parse its first digit run,
throwing no-numeric when there is none. -/
def scrapeStockHtml (p : HtmlPage) : Except ScrapeErr Nat :=
  let matching := p.titles.filter (fun t => decide (trim t.title = phraseList))
  if matching.isEmpty then .error .labelNotFound
  else
    let valueText := trim (List.flatten (matching.map (fun t => t.value.getD [])))
    match firstDigitRun valueText with
    | none => .error .noNumeric
    | some ds => .ok (digitsVal ds)

/-! ## The rendered-DOM scraper of src/unnamed/part_001 (scrapeStock)

scrapeStock selects by XPath the first element whose text contains
'Available Stock' (case-sensitively), reads its nextElementSibling's
textContent, strips every non-digit character and parseInts the rest. -/

/-- An element as seen by the XPath scraper: its own text (checked by
contains) and its next sibling's textContent, when a sibling exists. -/
structure XElem : Type where
  text : List Char
  next : Option (List Char)
deriving DecidableEq

/-- parseInt over the sibling text with all non-digits removed; an empty
digit set gives NaN, thrown as cannot-parse. -/
def parseSibling (t : List Char) : Except ScrapeErr Nat :=
  let ds := removeNonDigits t
  if ds.isEmpty then .error .cannotParse else .ok (digitsVal ds)

/-- Model of scrapeStock in src/unnamed/part_001 (lines 77-86): find the
first element containing the phrase, require a non-empty sibling text,
then parse the digits kept after deleting every non-digit character. -/
def scrapeStockX (doc : List XElem) : Except ScrapeErr Nat :=
  match doc.find? (fun e => listContains phraseList e.text) with
  | none => .error .labelNotFound
  | some e =>
    match e.next with
    | none => .error .stockTextNotFound
    | some t => if t.isEmpty then .error .stockTextNotFound else parseSibling t

/-! ## The stock writer (updateStock) and derived status -/

/-- The stock_status enumeration of the update payload. -/
inductive StockStatus : Type where
  | instock : StockStatus
  | outofstock : StockStatus
deriving DecidableEq

/-- The status derivation written inline in every updateStock variant:
stock greater than zero picks instock, anything else outofstock. -/
def stockStatus (q : Int) : StockStatus :=
  if q > 0 then .instock else .outofstock

/-- The JSON body of the PUT request; absent fields are none. -/
structure UpdateBody : Type where
  manage_stock : Option Bool
  stock_quantity : Option Int
  stock_status : Option StockStatus
deriving DecidableEq

/-- Model of updateStock in src/sync.js (lines 48-63) and in
src/unnamed/part_001: the body always carries stock_quantity and the
derived stock_status, and never a manage_stock field. -/
def updateBodySync (stock : Int) : UpdateBody :=
  { manage_stock := none
    stock_quantity := some stock
    stock_status := some (stockStatus stock) }

/-- Model of updateStock in src/unnamed/part_000 (lines 61-78): the body
starts as manage_stock true alone, and gains stock_quantity plus the
derived stock_status only when the quantity argument is a number. -/
def updateBodyPart000 (qty : Option Int) : UpdateBody :=
  match qty with
  | some q =>
      { manage_stock := some true
        stock_quantity := some q
        stock_status := some (stockStatus q) }
  | none =>
      { manage_stock := some true
        stock_quantity := none
        stock_status := none }

/-! ## Environment validation and the run drivers -/

/-- The environment variables each script destructures from process.env.
A variable is none when unset. -/
structure Env : Type where
  api_url : Option String
  consumer_key : Option String
  consumer_secret : Option String
deriving DecidableEq

/-- JS truthiness of an optional string: unset and the empty string are
both falsy. -/
def truthyStr : Option String → Bool
  | some s => !s.isEmpty
  | none => false

/-- The startup check at the top of every variant: all three required
variables must be truthy. -/
def envValid (e : Env) : Bool :=
  truthyStr e.api_url && truthyStr e.consumer_key && truthyStr e.consumer_secret

/-- A raw catalog record: the product id and the ordered meta_data
entries as key/value pairs. -/
structure RawProduct : Type where
  id : Nat
  meta_data : List (String × String)
deriving DecidableEq

/-- The fabrics filter: some meta entry has the configured key and a
truthy value. -/
def hasWarde (metaKey : String) (p : RawProduct) : Bool :=
  p.meta_data.any (fun m => m.1 = metaKey && !m.2.isEmpty)

/-- The url read inside the loop: the value of the first meta entry
whose key matches (the loop's find checks only the key). -/
def wardeUrl (metaKey : String) (p : RawProduct) : String :=
  ((p.meta_data.find? (fun m => decide (m.1 = metaKey))).map (fun m => m.2)).getD ""

/-- The observable outcome of one run: how many network requests were
issued, which PUT update bodies were sent (in order), which product ids
had a per-item error logged (in order), and the process exit code. -/
structure RunTrace : Type where
  netCalls : Nat
  updates : List (Nat × UpdateBody)
  errors : List Nat
  exitCode : Nat
deriving DecidableEq

/-- One iteration of the src/sync.js product loop (lines 105-116):
scrape the page behind the product's warde url; on success issue the
update (2 requests for the item), on a scrape error log the product id
and continue (1 request). The accumulator is (updates, errors, calls). -/
def syncStep (metaKey : String) (pages : String → HtmlPage)
    (acc : List (Nat × UpdateBody) × List Nat × Nat) (p : RawProduct) :
    List (Nat × UpdateBody) × List Nat × Nat :=
  match scrapeStockHtml (pages (wardeUrl metaKey p)) with
  | .ok n => (acc.1 ++ [(p.id, updateBodySync (Int.ofNat n))], acc.2.1, acc.2.2 + 2)
  | .error _ => (acc.1, acc.2.1 ++ [p.id], acc.2.2 + 1)

/-- Model of the src/sync.js driver: exit 1 with no requests when the
environment is invalid; otherwise page through the catalog, filter the
fabrics, run the loop, and finish with exit code 0 (also when no
product matches). The supplier site is modelled as a page per url. -/
def runSync (e : Env) (metaKey : String) (catalog : List RawProduct)
    (pages : String → HtmlPage) : RunTrace :=
  if !envValid e then ⟨0, [], [], 1⟩
  else
    let fetched := fetchAllProducts catalog
    let fabrics := fetched.1.filter (hasWarde metaKey)
    if fabrics.isEmpty then ⟨fetched.2, [], [], 0⟩
    else
      let res := fabrics.foldl (syncStep metaKey pages) ([], [], fetched.2)
      ⟨res.2.2, res.1, res.2.1, 0⟩

/-- A product reference as built by loadProductsFromWoo in
src/unnamed/part_000: the id and the trimmed warde url. -/
structure ProductRef : Type where
  id : Nat
  wardeUrl : String
deriving DecidableEq

/-- One iteration of the src/unnamed/part_000 loop (lines 86-96):
navigate to the page (1 request), extract the stock, which may be null,
and always call updateStock with the result (1 more request). -/
def part000Step (pages : String → List (List Char))
    (acc : List (Nat × UpdateBody) × List Nat × Nat) (p : ProductRef) :
    List (Nat × UpdateBody) × List Nat × Nat :=
  let stock := extractStock (pages p.wardeUrl)
  (acc.1 ++ [(p.id, updateBodyPart000 (stock.map Int.ofNat))], acc.2.1, acc.2.2 + 2)

/-- Model of the src/unnamed/part_000 driver over an already-loaded item
list (the load itself is one request): exit 1 with no requests when the
environment is invalid, else loop and end with exit code 0. Pages are
given as the innerTexts of their elements in document order. -/
def runPart000 (e : Env) (items : List ProductRef)
    (pages : String → List (List Char)) : RunTrace :=
  if !envValid e then ⟨0, [], [], 1⟩
  else
    let res := items.foldl (part000Step pages) ([], [], 1)
    ⟨res.2.2, res.1, res.2.1, 0⟩

/-- One iteration of the src/unnamed/part_001 loop (lines 112-123):
scrape via the XPath scraper; on success update (2 requests), on a
per-item error log the id (1 request). -/
def part001Step (metaKey : String) (docs : String → List XElem)
    (acc : List (Nat × UpdateBody) × List Nat × Nat) (p : RawProduct) :
    List (Nat × UpdateBody) × List Nat × Nat :=
  match scrapeStockX (docs (wardeUrl metaKey p)) with
  | .ok n => (acc.1 ++ [(p.id, updateBodySync (Int.ofNat n))], acc.2.1, acc.2.2 + 2)
  | .error _ => (acc.1, acc.2.1 ++ [p.id], acc.2.2 + 1)

/-- Model of the src/unnamed/part_001 driver: validate, page through the
catalog, filter the fabrics, loop with the XPath scraper, exit 0. -/
def runPart001 (e : Env) (metaKey : String) (catalog : List RawProduct)
    (docs : String → List XElem) : RunTrace :=
  if !envValid e then ⟨0, [], [], 1⟩
  else
    let fetched := fetchAllProducts catalog
    let fabrics := fetched.1.filter (hasWarde metaKey)
    if fabrics.isEmpty then ⟨fetched.2, [], [], 0⟩
    else
      let res := fabrics.foldl (part001Step metaKey docs) ([], [], fetched.2)
      ⟨res.2.2, res.1, res.2.1, 0⟩

/-! ## Exit paths and browser release (the main IIFEs)

To reason about which exit paths close the browser, the top-level
structure of each main function is embedded as a small program whose
actions may throw, with sequencing, try/catch and try/finally run under
an oracle saying which actions fail. -/

/-- The named steps of the main functions. -/
inductive Tag : Type where
  | fetchT : Tag
  | launchT : Tag
  | newPageT : Tag
  | loopT : Tag
  | logFatalT : Tag
  | closeT : Tag
deriving DecidableEq, BEq

/-- Top-level program shapes: an action, an action guarded on an earlier
action having run (the if-browser check before close), sequencing,
try/catch and try/finally. -/
inductive Prog : Type where
  | act : Tag → Prog
  | actIfDone : Tag → Tag → Prog
  | seq : Prog → Prog → Prog
  | tryCatch : Prog → Prog → Prog
  | tryFinally : Prog → Prog → Prog

/-- Run a program under a failure oracle, given the already-performed
events; returns the events performed (in order) and whether an
exception escapes. A throwing action still counts as performed. -/
def exec (f : Tag → Bool) : Prog → List Tag → List Tag × Bool
  | .act t, _ => ([t], f t)
  | .actIfDone dep t, evs => if evs.contains dep then ([t], f t) else ([], false)
  | .seq a b, evs =>
    let r1 := exec f a evs
    if r1.2 then r1
    else
      let r2 := exec f b (evs ++ r1.1)
      (r1.1 ++ r2.1, r2.2)
  | .tryCatch a h, evs =>
    let r1 := exec f a evs
    if r1.2 then
      let r2 := exec f h (evs ++ r1.1)
      (r1.1 ++ r2.1, r2.2)
    else r1
  | .tryFinally a fin, evs =>
    let r1 := exec f a evs
    let r2 := exec f fin (evs ++ r1.1)
    (r1.1 ++ r2.1, r1.2 || r2.2)

/-- The main IIFE of src/unnamed/part_001 (lines 88-129): fetch, launch,
open a page and loop inside a try whose catch logs, with a finally that
closes the browser when it was launched. -/
def part001MainP : Prog :=
  .tryFinally
    (.tryCatch
      (.seq (.act .fetchT)
        (.seq (.act .launchT) (.seq (.act .newPageT) (.act .loopT))))
      (.act .logFatalT))
    (.actIfDone .launchT .closeT)

/-- The main IIFE of src/unnamed/part_000 (lines 80-100): load, launch,
open a page, loop, then close - in straight line, with no top-level
try/catch or finally. -/
def part000MainP : Prog :=
  .seq (.act .fetchT)
    (.seq (.act .launchT)
      (.seq (.act .newPageT) (.seq (.act .loopT) (.act .closeT))))

/-! ## Decidable side conditions used in the claim statements -/

/-- Whether a text starts with an ASCII digit. -/
def headIsDigit : List Char → Bool
  | [] => false
  | c :: _ => isDigitChar c

/-- No position strictly inside the given head part starts a successful
stock-regex match of the head followed by the tail. This pins the first
regex match of a text to the occurrence spelled out in the tail. -/
def noMatchWithin : List Char → List Char → Bool
  | [], _ => true
  | c :: rest, tail => !(tryStockAt (c :: (rest ++ tail))).isSome && noMatchWithin rest tail

/-- The phrase "Available Stock" occurs nowhere in the page seen by the
cheerio scraper: not in any title, value or other text. -/
def pageLacksPhrase (p : HtmlPage) : Bool :=
  p.titles.all (fun t =>
      !(listContains phraseList t.title) && !(listContains phraseList (t.value.getD []))) &&
  !(listContains phraseList p.otherText)

/-- The phrase occurs nowhere in the document seen by the XPath scraper. -/
def docLacksPhrase (doc : List XElem) : Bool :=
  doc.all (fun e =>
    !(listContains phraseList e.text) && !(listContains phraseList (e.next.getD [])))

/-! ## Concrete fixtures used by witnesses and counterexamples -/

/-- A fully-set environment. -/
def envOk : Env := ⟨some "https://shop.example", some "ck", some "cs"⟩

/-- A three-product catalog, each product carrying a warde url. -/
def cat3 : List RawProduct :=
  [⟨1, [("warde_url", "a")]⟩, ⟨2, [("warde_url", "b")]⟩, ⟨3, [("warde_url", "c")]⟩]

/-- A supplier page whose label is well-formed but whose value text has
no digits at all. -/
def pageNoDigits : HtmlPage := ⟨[⟨phraseList, some (" soon".toList)⟩], []⟩

/-- A supplier page with no occurrence of the phrase anywhere. -/
def pageNoPhrase : HtmlPage := ⟨[], ("no stock figure here".toList)⟩

/-- A supplier page whose label is followed by the value "7 Meters". -/
def pageSeven : HtmlPage := ⟨[⟨phraseList, some ("7 Meters".toList)⟩], []⟩

/-- A supplier page whose label is followed by the value "5 Meters". -/
def pageFive : HtmlPage := ⟨[⟨phraseList, some ("5 Meters".toList)⟩], []⟩

/-- The supplier site of the partial-failure counterexample: product 1
gets a digit-free value, product 2 a page without the phrase, product 3
a parsable page. -/
def siteCex (u : String) : HtmlPage :=
  if u = "a" then pageNoDigits else if u = "b" then pageNoPhrase else pageSeven

/-- The supplier site of the partial-failure witness: products 1 and 3
parse, product 2 has no phrase. -/
def siteOk (u : String) : HtmlPage :=
  if u = "a" then pageFive else if u = "b" then pageNoPhrase else pageSeven

/-- A page whose only occurrence of the phrase sits outside any
li.flex span.title element. -/
def pagePhraseElsewhere : HtmlPage :=
  ⟨[], ("the Available Stock is hidden in a paragraph".toList)⟩

/-! ## Loader lemmas -/

theorem fetchPagesAux_spec {α : Type} :
    ∀ (fuel : Nat) (l : List α), l.length < fuel →
      (fetchPagesAux fuel l).1 = l ∧
      (fetchPagesAux fuel l).2 = (l.length + 99) / 100 + 1 := by
  intro fuel
  induction fuel with
  | zero => intro l h; omega
  | succ n ih =>
    intro l h
    by_cases he : (l.take 100).isEmpty
    · have hl : l = [] := by
        rcases l with _ | ⟨a, t⟩
        · rfl
        · simp [List.take_succ_cons] at he
      subst hl
      simp [fetchPagesAux]
    · have hlen : 0 < l.length := by
        rcases l with _ | ⟨a, t⟩
        · simp at he
        · simp
      have hdrop : (l.drop 100).length < n := by
        have : (l.drop 100).length = l.length - 100 := by simp
        omega
      obtain ⟨h1, h2⟩ := ih (l.drop 100) hdrop
      constructor
      · simp only [fetchPagesAux, if_neg he, h1]
        exact List.take_append_drop 100 l
      · simp only [fetchPagesAux, if_neg he, h2]
        have : (l.drop 100).length = l.length - 100 := by simp
        rw [this]
        omega

theorem fetchAllProducts_spec {α : Type} (catalog : List α) :
    (fetchAllProducts catalog).1 = catalog ∧
    (fetchAllProducts catalog).2 = (catalog.length + 99) / 100 + 1 :=
  fetchPagesAux_spec (catalog.length + 1) catalog (Nat.lt_succ_self _)

/-! ## Character and matching lemmas -/

theorem not_ws_of_digit {c : Char} (h : isDigitChar c = true) : isWsChar c = false := by
  simp only [isDigitChar, decide_eq_true_eq] at h
  simp only [isWsChar, decide_eq_false_iff_not]
  omega

theorem digit_ne_colon {c : Char} (h : isDigitChar c = true) : ¬(c = ':') := by
  intro hc
  rw [hc] at h
  exact absurd h (by decide)

theorem digit_ne_space {c : Char} (h : isDigitChar c = true) : ¬(c = ' ') := by
  intro hc
  rw [hc] at h
  exact absurd h (by decide)

theorem matchCI_append_self : ∀ (p t : List Char), matchCI p (p ++ t) = some t := by
  intro p
  induction p with
  | nil => intro t; simp [matchCI]
  | cons c cs ih =>
    intro t
    have hc : charEqCI c c = true := by simp [charEqCI]
    simp [matchCI, hc, ih t]

theorem takeWhile_append_all {p : Char → Bool} :
    ∀ (d r : List Char), (∀ c ∈ d, p c = true) →
      (d ++ r).takeWhile p = d ++ r.takeWhile p := by
  intro d
  induction d with
  | nil => intro r _; rfl
  | cons c cs ih =>
    intro r h
    have hc : p c = true := h c (List.mem_cons_self c cs)
    simp only [List.cons_append, List.takeWhile_cons, hc, if_true]
    rw [ih r (fun x hx => h x (List.mem_cons_of_mem c hx))]

theorem takeWhile_nil_of_head {r : List Char} (h : headIsDigit r = false) :
    r.takeWhile isDigitChar = [] := by
  cases r with
  | nil => rfl
  | cons c t =>
    simp only [headIsDigit] at h
    simp [List.takeWhile_cons, h]

/-! ## The stock regex at the phrase -/

theorem tryStockAt_phrase : ∀ (d r : List Char), d ≠ [] →
    (∀ c ∈ d, isDigitChar c = true) → headIsDigit r = false →
    tryStockAt (phraseList ++ (d ++ r)) = some d := by
  intro d r hd hdig hr
  rcases d with _ | ⟨c, d'⟩
  · exact absurd rfl hd
  have hc : isDigitChar c = true := hdig c (List.mem_cons_self c d')
  have hassoc : phraseList ++ ((c :: d') ++ r)
      = availList ++ (' ' :: (stockList ++ ((c :: d') ++ r))) := by
    simp [phraseList]
  have e1 : matchCI availList (phraseList ++ ((c :: d') ++ r))
      = some (' ' :: (stockList ++ ((c :: d') ++ r))) := by
    rw [hassoc, matchCI_append_self]
  have e2 : List.dropWhile isWsChar (' ' :: (stockList ++ ((c :: d') ++ r)))
      = stockList ++ ((c :: d') ++ r) := by
    simp [List.dropWhile_cons, stockList,
          show isWsChar ' ' = true from by decide,
          show isWsChar 'S' = false from by decide]
  have e3 : matchCI stockList (stockList ++ ((c :: d') ++ r))
      = some ((c :: d') ++ r) := matchCI_append_self _ _
  have e4 : List.dropWhile isWsChar ((c :: d') ++ r) = (c :: d') ++ r := by
    simp [List.dropWhile_cons, not_ws_of_digit hc]
  have e5 : afterColon ((c :: d') ++ r) = (c :: d') ++ r := by
    simp [afterColon, digit_ne_colon hc]
  have e6 : List.dropWhile (fun x => decide (x = ' ')) ((c :: d') ++ r)
      = (c :: d') ++ r := by
    simp [List.dropWhile_cons, digit_ne_space hc]
  have e7 : List.takeWhile isDigitChar ((c :: d') ++ r) = c :: d' := by
    rw [takeWhile_append_all _ _ hdig, takeWhile_nil_of_head hr, List.append_nil]
  simp only [tryStockAt, e1, e2, e3, e4, e5, e6, e7]
  simp

theorem tryPhraseAt_phrase (t : List Char) : tryPhraseAt (phraseList ++ t) = true := by
  have hassoc : phraseList ++ t = availList ++ (' ' :: (stockList ++ t)) := by
    simp [phraseList]
  have e1 : matchCI availList (phraseList ++ t) = some (' ' :: (stockList ++ t)) := by
    rw [hassoc, matchCI_append_self]
  have e2 : List.dropWhile isWsChar (' ' :: (stockList ++ t)) = stockList ++ t := by
    simp [List.dropWhile_cons, stockList,
          show isWsChar ' ' = true from by decide,
          show isWsChar 'S' = false from by decide]
  simp only [tryPhraseAt, e1, e2, matchCI_append_self]
  simp

theorem hasStockPhrase_append : ∀ (p t : List Char),
    hasStockPhrase (p ++ (phraseList ++ t)) = true := by
  intro p
  induction p with
  | nil =>
    intro t
    have hcons : phraseList ++ t
        = 'A' :: (['v', 'a', 'i', 'l', 'a', 'b', 'l', 'e', ' ', 'S', 't', 'o', 'c', 'k'] ++ t) := by
      simp [phraseList, availList, stockList]
    rw [List.nil_append, hcons, hasStockPhrase, ← hcons, tryPhraseAt_phrase]
    simp
  | cons c cs ih =>
    intro t
    rw [List.cons_append, hasStockPhrase, ih t]
    simp

theorem searchStockDigits_phrase : ∀ (p d r : List Char),
    noMatchWithin p (phraseList ++ (d ++ r)) = true →
    d ≠ [] → (∀ c ∈ d, isDigitChar c = true) → headIsDigit r = false →
    searchStockDigits (p ++ (phraseList ++ (d ++ r))) = some d := by
  intro p
  induction p with
  | nil =>
    intro d r _ hd hdig hr
    have ht := tryStockAt_phrase d r hd hdig hr
    have hcons : phraseList ++ (d ++ r)
        = 'A' :: (['v', 'a', 'i', 'l', 'a', 'b', 'l', 'e', ' ', 'S', 't', 'o', 'c', 'k'] ++ (d ++ r)) := by
      simp [phraseList, availList, stockList]
    rw [List.nil_append, hcons, searchStockDigits, ← hcons, ht]
  | cons c cs ih =>
    intro d r hnm hd hdig hr
    simp only [noMatchWithin, Bool.and_eq_true, Bool.not_eq_true'] at hnm
    obtain ⟨h1, h2⟩ := hnm
    have hnone : tryStockAt (c :: (cs ++ (phraseList ++ (d ++ r)))) = none := by
      cases hq : tryStockAt (c :: (cs ++ (phraseList ++ (d ++ r))))
      · rfl
      · rw [hq] at h1; simp at h1
    rw [List.cons_append, searchStockDigits, hnone]
    exact ih d r h2 hd hdig hr

theorem findFirstStock_append : ∀ (ts : List (List Char)) (x : List Char),
    (∀ t ∈ ts, searchStockNum t = none) →
    findFirstStock (ts ++ [x]) = searchStockNum x := by
  intro ts
  induction ts with
  | nil =>
    intro x _
    rw [List.nil_append, findFirstStock]
    cases hx : searchStockNum x <;> simp [findFirstStock, hx]
  | cons t ts ih =>
    intro x h
    have ht : searchStockNum t = none := h t (List.mem_cons_self t ts)
    rw [List.cons_append, findFirstStock, ht]
    exact ih x (fun u hu => h u (List.mem_cons_of_mem t hu))

/-- The part_000 scraper returns exactly the digit run standing at the
first regex match, the one spelled out by the phrase occurrence. -/
theorem extractStock_phrase (ts : List (List Char)) (p d r : List Char)
    (hts : ∀ t ∈ ts, searchStockNum t = none)
    (hnm : noMatchWithin p (phraseList ++ (d ++ r)) = true)
    (hd : d ≠ []) (hdig : ∀ c ∈ d, isDigitChar c = true)
    (hr : headIsDigit r = false) :
    extractStock (ts ++ [p ++ (phraseList ++ (d ++ r))]) = some (digitsVal d) := by
  have hgate : (ts ++ [p ++ (phraseList ++ (d ++ r))]).any hasStockPhrase = true := by
    rw [List.any_append]
    simp [hasStockPhrase_append p (d ++ r)]
  have hsearch : searchStockNum (p ++ (phraseList ++ (d ++ r))) = some (digitsVal d) := by
    unfold searchStockNum
    rw [searchStockDigits_phrase p d r hnm hd hdig hr]
    rfl
  rw [extractStock, if_pos hgate, findFirstStock_append ts _ hts, hsearch]

/-! ## Substring and trim lemmas -/

theorem isPrefixOf_append_self : ∀ (l t : List Char), l.isPrefixOf (l ++ t) = true := by
  intro l
  induction l with
  | nil => intro t; simp [List.isPrefixOf]
  | cons c cs ih =>
    intro t
    simp only [List.cons_append, List.isPrefixOf]
    simp [ih t]

theorem listContains_append_self : ∀ (a n b : List Char),
    listContains n (a ++ (n ++ b)) = true := by
  intro a n b
  induction a with
  | nil =>
    rw [List.nil_append]
    cases n with
    | nil =>
      cases b with
      | nil => rfl
      | cons x xs => simp [listContains]
    | cons x xs =>
      rw [List.cons_append, listContains, ← List.cons_append, isPrefixOf_append_self]
      simp
  | cons c cs ih =>
    rw [List.cons_append, listContains, ih]
    simp

theorem trim_decomp (s : List Char) :
    s = s.takeWhile isWsChar ++
        (trim s ++ ((s.dropWhile isWsChar).reverse.takeWhile isWsChar).reverse) := by
  have h1 : trim s ++ ((s.dropWhile isWsChar).reverse.takeWhile isWsChar).reverse
      = s.dropWhile isWsChar := by
    unfold trim
    rw [← List.reverse_append, List.takeWhile_append_dropWhile, List.reverse_reverse]
  rw [h1, List.takeWhile_append_dropWhile]

theorem contains_of_trim_eq {s n : List Char} (h : trim s = n) :
    listContains n s = true := by
  conv_lhs => rw [trim_decomp s, h]
  exact listContains_append_self _ _ _

theorem mem_of_mem_trim {c : Char} {s : List Char} (h : c ∈ trim s) : c ∈ s := by
  rw [trim_decomp s]
  simp only [List.mem_append]
  exact Or.inr (Or.inl h)

theorem firstDigitRun_digit : ∀ (l ds : List Char),
    firstDigitRun l = some ds → ∃ c ∈ l, isDigitChar c = true := by
  intro l
  induction l with
  | nil => intro ds h; simp [firstDigitRun] at h
  | cons c t ih =>
    intro ds h
    by_cases hc : isDigitChar c = true
    · exact ⟨c, List.mem_cons_self c t, hc⟩
    · rw [firstDigitRun, if_neg hc] at h
      obtain ⟨x, hx, hdx⟩ := ih ds h
      exact ⟨x, List.mem_cons_of_mem c hx, hdx⟩

/-! ## Scraper not-found lemmas -/

theorem scrapeStockHtml_labelNotFound {p : HtmlPage}
    (h : ∀ t ∈ p.titles, ¬(trim t.title = phraseList)) :
    scrapeStockHtml p = .error .labelNotFound := by
  have hfil : p.titles.filter (fun t => decide (trim t.title = phraseList)) = [] := by
    rw [List.filter_eq_nil_iff]
    intro t ht
    simp [h t ht]
  simp [scrapeStockHtml, hfil]

theorem no_title_of_lacks {p : HtmlPage} (h : pageLacksPhrase p = true) :
    ∀ t ∈ p.titles, ¬(trim t.title = phraseList) := by
  intro t ht heq
  simp only [pageLacksPhrase, Bool.and_eq_true, List.all_eq_true] at h
  obtain ⟨h1, _⟩ := h
  have h2 := h1 t ht
  simp only [Bool.and_eq_true, Bool.not_eq_true'] at h2
  have hcf := h2.1
  rw [contains_of_trim_eq heq] at hcf
  exact absurd hcf (by decide)

theorem scrapeStockX_labelNotFound {doc : List XElem} (h : docLacksPhrase doc = true) :
    scrapeStockX doc = .error .labelNotFound := by
  have hf : doc.find? (fun e => listContains phraseList e.text) = none := by
    rw [List.find?_eq_none]
    intro e he
    simp only [docLacksPhrase, List.all_eq_true] at h
    have h2 := h e he
    simp only [Bool.and_eq_true, Bool.not_eq_true'] at h2
    simp [h2.1]
  simp [scrapeStockX, hf]

/-- A quantity out of the cheerio scraper needs a matching title whose
following span.value text holds a digit. -/
theorem scrapeStockHtml_ok {p : HtmlPage} {n : Nat} (h : scrapeStockHtml p = .ok n) :
    ∃ t ∈ p.titles, trim t.title = phraseList ∧
      ∃ v, t.value = some v ∧ ∃ c ∈ v, isDigitChar c = true := by
  simp only [scrapeStockHtml] at h
  by_cases he : (p.titles.filter (fun t => decide (trim t.title = phraseList))).isEmpty
  · rw [if_pos he] at h
    exact absurd h (by simp)
  · rw [if_neg he] at h
    cases hfd : firstDigitRun (trim (List.flatten
        ((p.titles.filter (fun t => decide (trim t.title = phraseList))).map
          (fun t => t.value.getD [])))) with
    | none => rw [hfd] at h; exact absurd h (by simp)
    | some ds =>
      obtain ⟨c, hc, hcd⟩ := firstDigitRun_digit _ ds hfd
      have hc2 := mem_of_mem_trim hc
      rw [List.mem_flatten] at hc2
      obtain ⟨l, hl, hcl⟩ := hc2
      rw [List.mem_map] at hl
      obtain ⟨t, htm, rfl⟩ := hl
      rw [List.mem_filter] at htm
      obtain ⟨htp, htq⟩ := htm
      rw [decide_eq_true_eq] at htq
      cases ht : t.value with
      | none => rw [ht] at hcl; exact absurd hcl (by simp)
      | some v =>
        rw [ht] at hcl
        exact ⟨t, htp, htq, v, ht, c, hcl, hcd⟩

/-! ## Driver fold lemmas -/

theorem syncFold_updates_mem (metaKey : String) (pages : String → HtmlPage) :
    ∀ (l : List RawProduct) (acc : List (Nat × UpdateBody) × List Nat × Nat)
      (x : Nat × UpdateBody),
      x ∈ (l.foldl (syncStep metaKey pages) acc).1 →
      x ∈ acc.1 ∨ ∃ n : Nat, x.2 = updateBodySync (Int.ofNat n) := by
  intro l
  induction l with
  | nil => intro acc x hx; exact Or.inl hx
  | cons p ps ih =>
    intro acc x hx
    rw [List.foldl_cons] at hx
    rcases ih _ x hx with h | h
    · unfold syncStep at h
      cases hs : scrapeStockHtml (pages (wardeUrl metaKey p)) with
      | ok n =>
        rw [hs] at h
        rw [List.mem_append] at h
        rcases h with h | h
        · exact Or.inl h
        · rw [List.mem_singleton] at h
          exact Or.inr ⟨n, by rw [h]⟩
      | error err =>
        rw [hs] at h
        exact Or.inl h
    · exact Or.inr h

theorem part000Fold_updates (pages : String → List (List Char)) :
    ∀ (l : List ProductRef) (acc : List (Nat × UpdateBody) × List Nat × Nat),
      (l.foldl (part000Step pages) acc).1
        = acc.1 ++ l.map (fun p =>
            (p.id, updateBodyPart000 ((extractStock (pages p.wardeUrl)).map Int.ofNat))) := by
  intro l
  induction l with
  | nil => intro acc; simp
  | cons p ps ih =>
    intro acc
    rw [List.foldl_cons, ih]
    simp [part000Step]

/-! ## Three-product scenario lemmas -/

theorem runSync_three (e : Env) (metaKey : String) (catalog : List RawProduct)
    (pages : String → HtmlPage) (p1 p2 p3 : RawProduct) (q1 q3 : Nat)
    (he : envValid e = true)
    (hfab : (fetchAllProducts catalog).1.filter (hasWarde metaKey) = [p1, p2, p3])
    (h1 : scrapeStockHtml (pages (wardeUrl metaKey p1)) = .ok q1)
    (h2 : pageLacksPhrase (pages (wardeUrl metaKey p2)) = true)
    (h3 : scrapeStockHtml (pages (wardeUrl metaKey p3)) = .ok q3) :
    (runSync e metaKey catalog pages).updates
        = [(p1.id, updateBodySync (Int.ofNat q1)), (p3.id, updateBodySync (Int.ofNat q3))] ∧
    (runSync e metaKey catalog pages).errors = [p2.id] ∧
    (runSync e metaKey catalog pages).exitCode = 0 := by
  have h2e : scrapeStockHtml (pages (wardeUrl metaKey p2)) = .error .labelNotFound :=
    scrapeStockHtml_labelNotFound (no_title_of_lacks h2)
  unfold runSync
  rw [he]
  simp only [Bool.not_true, Bool.false_eq_true, if_false, hfab]
  simp [syncStep, h1, h2e, h3]

theorem runPart001_three (e : Env) (metaKey : String) (catalog : List RawProduct)
    (docs : String → List XElem) (p1 p2 p3 : RawProduct) (q1 q3 : Nat)
    (he : envValid e = true)
    (hfab : (fetchAllProducts catalog).1.filter (hasWarde metaKey) = [p1, p2, p3])
    (h1 : scrapeStockX (docs (wardeUrl metaKey p1)) = .ok q1)
    (h2 : docLacksPhrase (docs (wardeUrl metaKey p2)) = true)
    (h3 : scrapeStockX (docs (wardeUrl metaKey p3)) = .ok q3) :
    (runPart001 e metaKey catalog docs).updates
        = [(p1.id, updateBodySync (Int.ofNat q1)), (p3.id, updateBodySync (Int.ofNat q3))] ∧
    (runPart001 e metaKey catalog docs).errors = [p2.id] ∧
    (runPart001 e metaKey catalog docs).exitCode = 0 := by
  have h2e : scrapeStockX (docs (wardeUrl metaKey p2)) = .error .labelNotFound :=
    scrapeStockX_labelNotFound h2
  unfold runPart001
  rw [he]
  simp only [Bool.not_true, Bool.false_eq_true, if_false, hfab]
  simp [part001Step, h1, h2e, h3]

/-! ## Exit-path lemmas for the main IIFEs -/

theorem part001_close_once (f : Tag → Bool)
    (hf : f .fetchT = false) (hl : f .launchT = false) :
    (exec f part001MainP []).1.count .closeT = 1 := by
  cases hnp : f .newPageT <;> cases hlp : f .loopT <;> cases hlg : f .logFatalT <;>
    simp [exec, part001MainP, hf, hl, hnp, hlp, hlg] <;>
    rw [if_pos (by decide)] <;>
    simp [List.count_cons] <;>
    decide

theorem part000_close_normal (f : Tag → Bool)
    (h1 : f .fetchT = false) (h2 : f .launchT = false)
    (h3 : f .newPageT = false) (h4 : f .loopT = false) :
    (exec f part000MainP []).1.count .closeT = 1 := by
  simp [exec, part000MainP, h1, h2, h3, h4, List.count_cons]
  decide

/-! ## Update-shape lemmas for the drivers -/

theorem runSync_updates_shape (e : Env) (mk : String) (cat : List RawProduct)
    (pages : String → HtmlPage) :
    ∀ x ∈ (runSync e mk cat pages).updates,
      ∃ n : Nat, x.2 = updateBodySync (Int.ofNat n) := by
  intro x hx
  unfold runSync at hx
  by_cases he : envValid e = true
  · simp only [he, Bool.not_true, Bool.false_eq_true, if_false] at hx
    by_cases hf : ((fetchAllProducts cat).1.filter (hasWarde mk)).isEmpty
    · simp only [hf, if_true] at hx
      exact absurd hx (by simp)
    · simp only [hf, Bool.false_eq_true, if_false] at hx
      rcases syncFold_updates_mem mk pages _ _ x hx with h | h
      · exact absurd h (by simp)
      · exact h
  · have he' : envValid e = false := by
      cases hv : envValid e
      · rfl
      · exact absurd hv he
    simp only [he', Bool.not_false, if_true] at hx
    exact absurd hx (by simp)

theorem runPart000_updates_eq (e : Env) (items : List ProductRef)
    (pages : String → List (List Char)) (he : envValid e = true) :
    (runPart000 e items pages).updates
      = items.map (fun p =>
          (p.id, updateBodyPart000 ((extractStock (pages p.wardeUrl)).map Int.ofNat))) := by
  unfold runPart000
  simp only [he, Bool.not_true, Bool.false_eq_true, if_false]
  rw [part000Fold_updates]
  simp

theorem runPart000_updates_shape (e : Env) (items : List ProductRef)
    (pages : String → List (List Char)) :
    ∀ x ∈ (runPart000 e items pages).updates,
      ∃ o : Option Nat, x.2 = updateBodyPart000 (o.map Int.ofNat) := by
  intro x hx
  by_cases he : envValid e = true
  · rw [runPart000_updates_eq e items pages he] at hx
    rw [List.mem_map] at hx
    obtain ⟨p, _, rfl⟩ := hx
    exact ⟨extractStock (pages p.wardeUrl), rfl⟩
  · have he' : envValid e = false := by
      cases hv : envValid e
      · rfl
      · exact absurd hv he
    unfold runPart000 at hx
    simp only [he', Bool.not_false, if_true] at hx
    exact absurd hx (by simp)

/-! ## Claim C1 -/

/-- Claim C1 fails as stated: a catalog of N = 1 page holding K = 1
record gives the stated record count but two page-fetch calls, not
N = 1, because the loop must see one empty page to stop. -/
theorem c1_counterexample :
    (fetchAllProducts (List.range 1)).1.length = 100 * (1 - 1) + 1 ∧
    ¬((fetchAllProducts (List.range 1)).2 = 1) := by decide

/-- Claim C1 (amended): over a catalog of N pages of 100 records with a
final partial page of K records, fetchAllProducts returns exactly
100*(N-1)+K records; it issues exactly N page-fetch calls when K = 0
and N+1 calls when K is positive, terminating on the first page that
returns zero items. -/
theorem c1_loader_pagination {α : Type} (catalog : List α) (N K : Nat)
    (hN : 1 ≤ N) (hK : K < 100) (hlen : catalog.length = 100 * (N - 1) + K) :
    (fetchAllProducts catalog).1.length = 100 * (N - 1) + K ∧
    (fetchAllProducts catalog).2 = (if K = 0 then N else N + 1) := by
  obtain ⟨h1, h2⟩ := fetchAllProducts_spec catalog
  constructor
  · rw [h1, hlen]
  · rw [h2, hlen]
    by_cases hk0 : K = 0
    · rw [if_pos hk0]
      subst hk0
      omega
    · rw [if_neg hk0]
      omega

/-- The amended claim C1 at a catalog of 150 records (N = 2, K = 50):
150 records returned in 3 calls. -/
theorem c1_loader_pagination_witness :
    (fetchAllProducts (List.range 150)).1.length = 100 * (2 - 1) + 50 ∧
    (fetchAllProducts (List.range 150)).2 = (if 50 = 0 then 2 else 2 + 1) :=
  c1_loader_pagination (List.range 150) 2 50 (by decide) (by decide) (by simp)

/-! ## Claim C2 -/

/-- Claim C2 fails as stated for the part_001 scraper: the page text
"Available Stock12ab3" contains the phrase immediately followed by the
digit run 12, yet scrapeStockX returns 123, the concatenation of every
digit run in the sibling text. -/
theorem c2_counterexample :
    scrapeStockX [⟨phraseList, some ['1', '2', 'a', 'b', '3']⟩] = .ok 123 ∧
    ¬((123 : Nat) = 12) := by
  refine ⟨rfl, by decide⟩

/-- Claim C2 (amended): when the first stock-regex match of an element
text is the spelled-out phrase occurrence, part_000's extractStock
returns exactly the first digit run standing after the phrase,
ignoring later digits; part_001's scrapeStock parses the sibling text
with every non-digit removed, so it agrees only when that text holds a
single digit run. -/
theorem c2_first_digit_run :
    (∀ (ts : List (List Char)) (p d r : List Char),
        (∀ t ∈ ts, searchStockNum t = none) →
        noMatchWithin p (phraseList ++ (d ++ r)) = true →
        d ≠ [] → (∀ c ∈ d, isDigitChar c = true) → headIsDigit r = false →
        extractStock (ts ++ [p ++ (phraseList ++ (d ++ r))]) = some (digitsVal d)) ∧
    (∀ (a d b : List Char),
        (∀ c ∈ a, isDigitChar c = false) → (∀ c ∈ b, isDigitChar c = false) →
        d ≠ [] → (∀ c ∈ d, isDigitChar c = true) →
        parseSibling (a ++ (d ++ b)) = .ok (digitsVal d)) := by
  constructor
  · exact extractStock_phrase
  · intro a d b ha hb hd hdig
    have hfa : a.filter isDigitChar = [] := by
      rw [List.filter_eq_nil_iff]
      intro c hc
      simp [ha c hc]
    have hfb : b.filter isDigitChar = [] := by
      rw [List.filter_eq_nil_iff]
      intro c hc
      simp [hb c hc]
    have hfd : d.filter isDigitChar = d := by
      rw [List.filter_eq_self]
      exact hdig
    have hne : d.isEmpty = false := by
      cases d with
      | nil => exact absurd rfl hd
      | cons x xs => rfl
    simp [parseSibling, removeNonDigits, List.filter_append, hfa, hfb, hfd, hne]

/-- The amended claim C2 on concrete inputs: the element text
"see Available Stock109 Meters 5" yields 109 for extractStock, and a
single-run sibling text "= 42 pcs" yields 42 for the part_001 parse. -/
theorem c2_first_digit_run_witness :
    extractStock [("see ".toList ++ (phraseList ++ ("109".toList ++ " Meters 5".toList)))]
        = some (digitsVal "109".toList) ∧
    parseSibling ("= ".toList ++ ("42".toList ++ " pcs".toList))
        = .ok (digitsVal "42".toList) :=
  ⟨c2_first_digit_run.1 [] "see ".toList "109".toList " Meters 5".toList
      (by intro t ht; exact absurd ht (by simp)) (by decide) (by decide) (by decide) (by decide),
   c2_first_digit_run.2 "= ".toList "42".toList " pcs".toList
      (by decide) (by decide) (by decide) (by decide)⟩

/-! ## Claim C3 -/

/-- Claim C3: the status sent by the writer is instock exactly when the
quantity is positive and outofstock at zero, and every quantity a
driver passes to the writer is the cast of a parsed digit run, hence
never negative. -/
theorem c3_status_derivation :
    (∀ q : Int, stockStatus q = .instock ↔ 0 < q) ∧
    stockStatus 0 = .outofstock ∧
    (∀ (e : Env) (mk : String) (cat : List RawProduct) (pages : String → HtmlPage)
        (x : Nat × UpdateBody) (q : Int),
        x ∈ (runSync e mk cat pages).updates → x.2.stock_quantity = some q →
        0 ≤ q ∧ x.2.stock_status = some (stockStatus q)) ∧
    (∀ (e : Env) (items : List ProductRef) (pages : String → List (List Char))
        (x : Nat × UpdateBody) (q : Int),
        x ∈ (runPart000 e items pages).updates → x.2.stock_quantity = some q →
        0 ≤ q ∧ x.2.stock_status = some (stockStatus q)) := by
  refine ⟨?_, ?_, ?_, ?_⟩
  · intro q
    by_cases h : 0 < q <;> simp [stockStatus, h]
  · rfl
  · intro e mk cat pages x q hx hq
    obtain ⟨n, hb⟩ := runSync_updates_shape e mk cat pages x hx
    rw [hb] at hq
    simp only [updateBodySync, Option.some.injEq] at hq
    subst hq
    refine ⟨Int.ofNat_nonneg n, ?_⟩
    rw [hb]
    rfl
  · intro e items pages x q hx hq
    obtain ⟨o, hb⟩ := runPart000_updates_shape e items pages x hx
    cases o with
    | none =>
      rw [hb] at hq
      exact absurd hq (by simp [updateBodyPart000])
    | some n =>
      have hb' : x.2 = { manage_stock := some true,
                         stock_quantity := some (Int.ofNat n),
                         stock_status := some (stockStatus (Int.ofNat n)) } := hb
      rw [hb'] at hq
      simp only [Option.some.injEq] at hq
      subst hq
      refine ⟨Int.ofNat_nonneg n, ?_⟩
      rw [hb']

/-- Claim C3 exercised on a one-product run that scrapes the value 7. -/
theorem c3_status_derivation_witness :
    0 ≤ (Int.ofNat 7) ∧
    (updateBodySync (Int.ofNat 7)).stock_status = some (stockStatus (Int.ofNat 7)) :=
  c3_status_derivation.2.2.1 envOk "warde_url" [⟨1, [("warde_url", "c")]⟩]
    (fun _ => pageSeven) (1, updateBodySync (Int.ofNat 7)) (Int.ofNat 7)
    (by decide) (by decide)

/-! ## Claim C4 -/

/-- Claim C4: with no occurrence of the phrase, the rendered-DOM
scraper's bounded wait times out and it returns null rather than
throwing, while the static-HTML scraper throws its explicit per-item
label-not-found error. -/
theorem c4_not_found (texts : List (List Char)) (page : HtmlPage)
    (ht : ∀ t ∈ texts, hasStockPhrase t = false)
    (hp : pageLacksPhrase page = true) :
    extractStock texts = none ∧ scrapeStockHtml page = .error .labelNotFound := by
  constructor
  · have hany : texts.any hasStockPhrase = false := by
      rw [List.any_eq_false]
      intro t htm
      simp [ht t htm]
    rw [extractStock, if_neg (by simp [hany])]
  · exact scrapeStockHtml_labelNotFound (no_title_of_lacks hp)

/-- Claim C4 at a phrase-free element text and a phrase-free page. -/
theorem c4_not_found_witness :
    extractStock [['h', 'i']] = none ∧
    scrapeStockHtml pageNoPhrase = .error .labelNotFound :=
  c4_not_found [['h', 'i']] pageNoPhrase (by decide) (by decide)

/-! ## Claim C5 -/

/-- Claim C5: with any of the three required configuration values
unset, every driver variant issues zero network calls, performs no
updates, and the process exits 1 before any component runs. -/
theorem c5_config_validation (e : Env)
    (h : e.api_url = none ∨ e.consumer_key = none ∨ e.consumer_secret = none) :
    (∀ (mk : String) (cat : List RawProduct) (pages : String → HtmlPage),
        runSync e mk cat pages = ⟨0, [], [], 1⟩) ∧
    (∀ (items : List ProductRef) (pages : String → List (List Char)),
        runPart000 e items pages = ⟨0, [], [], 1⟩) ∧
    (∀ (mk : String) (cat : List RawProduct) (docs : String → List XElem),
        runPart001 e mk cat docs = ⟨0, [], [], 1⟩) := by
  have hv : envValid e = false := by
    rcases h with h | h | h <;> simp [envValid, truthyStr, h]
  refine ⟨?_, ?_, ?_⟩
  · intro mk cat pages
    simp [runSync, hv]
  · intro items pages
    simp [runPart000, hv]
  · intro mk cat docs
    simp [runPart001, hv]

/-- Claim C5 with the API base URL unset. -/
theorem c5_config_validation_witness :
    runSync ⟨none, some "ck", some "cs"⟩ "warde_url" [] (fun _ => pageNoPhrase)
      = ⟨0, [], [], 1⟩ :=
  (c5_config_validation ⟨none, some "ck", some "cs"⟩ (Or.inl rfl)).1
    "warde_url" [] (fun _ => pageNoPhrase)

/-! ## Claim C6 -/

/-- Claim C6 fails as stated: here only product 2's supplier page lacks
the stock phrase (product 1's page carries the label with a digit-free
value), yet the driver skips product 1 as well, updating only product
3 - so it does not update every other product. -/
theorem c6_counterexample :
    pageLacksPhrase (siteCex (wardeUrl "warde_url" ⟨1, [("warde_url", "a")]⟩)) = false ∧
    pageLacksPhrase (siteCex (wardeUrl "warde_url" ⟨2, [("warde_url", "b")]⟩)) = true ∧
    pageLacksPhrase (siteCex (wardeUrl "warde_url" ⟨3, [("warde_url", "c")]⟩)) = false ∧
    (runSync envOk "warde_url" cat3 siteCex).updates.map Prod.fst = [3] ∧
    (runSync envOk "warde_url" cat3 siteCex).errors = [1, 2] := by
  refine ⟨by decide, by decide, by decide, ?_, ?_⟩ <;> rfl

/-- Claim C6 (amended): in a three-product run where product 2's page
lacks the stock phrase and the other two pages scrape successfully,
both driver variants update products 1 and 3, skip product 2, log the
error for product 2 alone, and exit 0. -/
theorem c6_partial_failure :
    (∀ (e : Env) (mk : String) (cat : List RawProduct) (pages : String → HtmlPage)
        (p1 p2 p3 : RawProduct) (q1 q3 : Nat),
        envValid e = true →
        (fetchAllProducts cat).1.filter (hasWarde mk) = [p1, p2, p3] →
        scrapeStockHtml (pages (wardeUrl mk p1)) = .ok q1 →
        pageLacksPhrase (pages (wardeUrl mk p2)) = true →
        scrapeStockHtml (pages (wardeUrl mk p3)) = .ok q3 →
        (runSync e mk cat pages).updates
            = [(p1.id, updateBodySync (Int.ofNat q1)), (p3.id, updateBodySync (Int.ofNat q3))] ∧
        (runSync e mk cat pages).errors = [p2.id] ∧
        (runSync e mk cat pages).exitCode = 0) ∧
    (∀ (e : Env) (mk : String) (cat : List RawProduct) (docs : String → List XElem)
        (p1 p2 p3 : RawProduct) (q1 q3 : Nat),
        envValid e = true →
        (fetchAllProducts cat).1.filter (hasWarde mk) = [p1, p2, p3] →
        scrapeStockX (docs (wardeUrl mk p1)) = .ok q1 →
        docLacksPhrase (docs (wardeUrl mk p2)) = true →
        scrapeStockX (docs (wardeUrl mk p3)) = .ok q3 →
        (runPart001 e mk cat docs).updates
            = [(p1.id, updateBodySync (Int.ofNat q1)), (p3.id, updateBodySync (Int.ofNat q3))] ∧
        (runPart001 e mk cat docs).errors = [p2.id] ∧
        (runPart001 e mk cat docs).exitCode = 0) :=
  ⟨fun e mk cat pages p1 p2 p3 q1 q3 he hfab h1 h2 h3 =>
      runSync_three e mk cat pages p1 p2 p3 q1 q3 he hfab h1 h2 h3,
   fun e mk cat docs p1 p2 p3 q1 q3 he hfab h1 h2 h3 =>
      runPart001_three e mk cat docs p1 p2 p3 q1 q3 he hfab h1 h2 h3⟩

/-- The amended claim C6 on a concrete three-product run: values 5 and
7 are written for products 1 and 3, product 2 is logged, exit 0. -/
theorem c6_partial_failure_witness :
    (runSync envOk "warde_url" cat3 siteOk).updates
        = [(1, updateBodySync (Int.ofNat 5)), (3, updateBodySync (Int.ofNat 7))] ∧
    (runSync envOk "warde_url" cat3 siteOk).errors = [2] ∧
    (runSync envOk "warde_url" cat3 siteOk).exitCode = 0 :=
  c6_partial_failure.1 envOk "warde_url" cat3 siteOk
    ⟨1, [("warde_url", "a")]⟩ ⟨2, [("warde_url", "b")]⟩ ⟨3, [("warde_url", "c")]⟩ 5 7
    (by decide) (by decide) (by rfl) (by decide) (by rfl)

/-! ## Claim C7 -/

/-- Claim C7 fails as stated: the src/sync.js and part_001 writers send
no manage_stock field at all, here shown at quantity 5. -/
theorem c7_counterexample :
    (updateBodySync 5).manage_stock = none ∧
    ¬((updateBodySync 5).manage_stock = some true) := by decide

/-- Claim C7 (amended): part_000's writer always sets manage_stock true
and adds stock_quantity plus the derived stock_status exactly when a
quantity is present; the sync.js and part_001 writers always send
stock_quantity and the derived stock_status and never manage_stock. -/
theorem c7_update_payload :
    (∀ q : Int, updateBodyPart000 (some q)
        = ⟨some true, some q, some (stockStatus q)⟩) ∧
    updateBodyPart000 none = ⟨some true, none, none⟩ ∧
    (∀ q : Int, updateBodySync q = ⟨none, some q, some (stockStatus q)⟩) :=
  ⟨fun _ => rfl, rfl, fun _ => rfl⟩

/-! ## Claim C8 -/

/-- Claim C8 fails as stated: in part_000, when opening the browser
page after launch throws, the error escapes the run and the browser is
never closed. -/
theorem c8_counterexample :
    (exec (fun t => t == Tag.newPageT) part000MainP []).1.count .closeT = 0 ∧
    (exec (fun t => t == Tag.newPageT) part000MainP []).2 = true := by decide

/-- Claim C8 (amended): part_001's finally closes the browser exactly
once on normal completion and on any fatal error thrown after a
successful launch; part_000 closes it exactly once on normal
completion only. -/
theorem c8_browser_release :
    (∀ f : Tag → Bool, f .fetchT = false → f .launchT = false →
        (exec f part001MainP []).1.count .closeT = 1) ∧
    (∀ f : Tag → Bool, f .fetchT = false → f .launchT = false →
        f .newPageT = false → f .loopT = false →
        (exec f part000MainP []).1.count .closeT = 1) :=
  ⟨part001_close_once, part000_close_normal⟩

/-- The amended claim C8 under the all-success oracle. -/
theorem c8_browser_release_witness :
    (exec (fun _ => false) part001MainP []).1.count .closeT = 1 ∧
    (exec (fun _ => false) part000MainP []).1.count .closeT = 1 :=
  ⟨c8_browser_release.1 (fun _ => false) rfl rfl,
   c8_browser_release.2 (fun _ => false) rfl rfl rfl rfl⟩

/-! ## Claim C9 -/

/-- Claim C9: the part_000 driver calls the writer for every product,
also when extractStock returned null, and the body then holds exactly
manage_stock true with no stock_quantity and no stock_status. -/
theorem c9_bare_update (e : Env) (items : List ProductRef)
    (pages : String → List (List Char)) (he : envValid e = true) :
    (runPart000 e items pages).updates
        = items.map (fun p =>
            (p.id, updateBodyPart000 ((extractStock (pages p.wardeUrl)).map Int.ofNat))) ∧
    ∀ p ∈ items, extractStock (pages p.wardeUrl) = none →
      (p.id, (⟨some true, none, none⟩ : UpdateBody)) ∈ (runPart000 e items pages).updates := by
  have hu := runPart000_updates_eq e items pages he
  refine ⟨hu, ?_⟩
  intro p hp hnone
  rw [hu, List.mem_map]
  exact ⟨p, hp, by rw [hnone]; rfl⟩

/-- Claim C9 at a one-product run whose page has no elements at all. -/
theorem c9_bare_update_witness :
    (7, (⟨some true, none, none⟩ : UpdateBody)) ∈
      (runPart000 envOk [⟨7, "u"⟩] (fun _ => [])).updates :=
  (c9_bare_update envOk [⟨7, "u"⟩] (fun _ => []) (by decide)).2
    ⟨7, "u"⟩ (by decide) (by rfl)

/-! ## Claim C10 -/

/-- Claim C10: the cheerio scraper yields a quantity only when some
li.flex span.title has trimmed text exactly "Available Stock" and its
following span.value text holds a digit; a page whose only phrase
occurrences sit in other markup throws label-not-found even though the
phrase is present. -/
theorem c10_selector_strictness :
    (∀ (p : HtmlPage) (n : Nat), scrapeStockHtml p = .ok n →
        ∃ t ∈ p.titles, trim t.title = phraseList ∧
          ∃ v, t.value = some v ∧ ∃ c ∈ v, isDigitChar c = true) ∧
    (∀ p : HtmlPage, listContains phraseList p.otherText = true →
        (∀ t ∈ p.titles, ¬(trim t.title = phraseList)) →
        scrapeStockHtml p = .error .labelNotFound) :=
  ⟨fun _ _ h => scrapeStockHtml_ok h,
   fun _ _ h => scrapeStockHtml_labelNotFound h⟩

/-- Claim C10 on concrete pages: a well-formed page witnesses the
quantity side, and a page whose phrase sits only in a paragraph throws
label-not-found. -/
theorem c10_selector_strictness_witness :
    (∃ t ∈ pageSeven.titles, trim t.title = phraseList ∧
        ∃ v, t.value = some v ∧ ∃ c ∈ v, isDigitChar c = true) ∧
    scrapeStockHtml pagePhraseElsewhere = .error .labelNotFound :=
  ⟨c10_selector_strictness.1 pageSeven 7 (by rfl),
   c10_selector_strictness.2 pagePhraseElsewhere (by decide) (by decide)⟩

end WardeScra
